import Mathlib

/-!
Shallow embedding of `src/dvupload.py` (class `DVUpload`): a Dataverse
direct-to-storage upload client.  Pure translation of the Python source:

* Python exceptions become an explicit `PyExc` error type; every embedded
  function returns the list of network calls it issued (its trace) together
  with `Except PyExc` of its Python return value.
* The external world (filesystem contents, MIME tables, HTTP responses,
  the md5 hex-digest function of `hashlib`) is an `Ext` oracle record; the
  code under embedding is deterministic given `Ext`.
* `requests` calls are modelled as returning a response; transport-level
  exceptions (`ConnectionError`) are outside the modelled environment, as
  the spec puts the HTTP transport out of scope.
-/

namespace DV

/-- Python exceptions that the embedded code can raise or propagate. -/
inductive PyExc where
  | fileNotFoundError
  | attributeError
  | keyError
  | typeError
  | unboundLocalError
  deriving DecidableEq, Repr

/-- An HTTP response as the code observes it: `status_code` and the
optional `ETag` header (`headers['ETag']` raises `KeyError` when absent). -/
structure Response where
  status : Nat
  etag : Option String
  deriving DecidableEq, Repr

/-- The parsed `data` object of the negotiation response
(`presigned_url.json()["data"]`).  Every field a dict subscript can miss is
an `Option`; subscripting a missing key raises `KeyError`. -/
structure PresignedData where
  storageIdentifier : Option String
  url : Option String
  urls : Option (List (String × String))
  partSize : Option Nat
  complete : Option String
  abort : Option String
  deriving DecidableEq, Repr

/-- The checksum descriptor dict; fields `type`/`value` stand for the JSON
keys `@type`/`@value`. -/
structure Checksum where
  type : String
  value : String
  deriving DecidableEq, Repr

/-- The `data` sub-dict of `file_metadata`, progressively filled by
`upload`: `storageIdentifier` and `checksum` are absent until set. -/
structure FileData where
  categories : List String
  fileName : String
  mimeType : String
  descr : String
  storageIdentifier : Option String := none
  checksum : Option Checksum := none
  deriving DecidableEq, Repr

/-- The dict returned by `upload`: `{"status": ..., "data": {...}}`. -/
structure UploadResult where
  status : String
  data : FileData
  deriving DecidableEq, Repr

/-- The dicts returned by `__upload` / `__upload_multipart`:
`{"status": ..., "checksum": ...}`. -/
structure TransferRet where
  status : String
  checksum : Option Checksum
  deriving DecidableEq, Repr

/-- One network call, in the order issued. -/
inductive Call where
  | negGet (size : Nat)
  | storagePut (url : String) (body : List Nat)
  | completePut (url : String) (body : List (String × String))
  | abortDelete (url : String)
  | metaPost (body : FileData)
  deriving DecidableEq, Repr

/-- The argument `filename : str | os.PathLike[str]` of `upload`. -/
inductive PyStr where
  | str (s : String)
  | pathLike (s : String)
  deriving DecidableEq, Repr

/-- The oracle for everything external to the code: the file at the given
path (`none` = missing), `mimetypes.guess_type(filename)[0]`, the md5
hex-digest function, and the responses of the storage/repository servers. -/
structure Ext where
  fs : Option (List Nat)
  guessType : Option String
  md5hex : List Nat → String
  negStatus : Nat
  negData : PresignedData
  put : String → Response
  completeStatus : Nat
  postStatus : Nat

/-- The module-level `MIME_TYPES` fallback dict. -/
def MIME_TYPES : List (String × String) :=
  [("bib", "text/x-bibtex"),
   ("sav", "application/x-spss-sav"),
   ("7z", "application/x-7z-compressed"),
   ("dat", "text/x-fixed-field"),
   ("root", "application/octet-stream"),
   ("ipynb", "application/x-ipynb+json")]

/-- Python `str.split` for a one-character separator: splits on every
occurrence, keeps empty segments, and never returns an empty list —
`"".split(sep)` is `[""]`. -/
def splitChar (sep : Char) : List Char → List (List Char)
  | [] => [[]]
  | c :: cs =>
    let r := splitChar sep cs
    if c = sep then [] :: r
    else
      match r with
      | [] => [[c]]
      | g :: gs => (c :: g) :: gs

/-- Python `s.split(sep)[-1]` for a one-character separator (`os.sep` is
the one-character `/` on the target platform, and the MIME fallback splits
on `.`): the last element of a never-empty split. -/
def lastSplit (s : String) (sep : Char) : String :=
  String.mk ((splitChar sep s.data).getLastD [])

/-- The `for part_id, supplied_url in s3_bucket_urls.items()` loop of
`__upload_multipart` (source lines 93-100).  State: `acc` is the byte
sequence fed to the running `md5sum` so far, `etags` the `e_tags` dict as
an insertion-ordered association list, `rem` the unread rest of the file.
Each iteration reads `partSize` bytes (`chunk`), updates the digest, PUTs
the chunk, then reads `headers['ETag']` — raising `KeyError` when the
response has no ETag — and stores it with quote characters stripped. -/
def mpLoop (ext : Ext) (k : Nat) :
    List (String × String) → List Nat → List (String × String) → List Nat →
    List Call × Except PyExc (List Nat × List (String × String))
  | [], acc, etags, _ => ([], .ok (acc, etags))
  | (pid, u) :: rest, acc, etags, rem =>
    let chunk := rem.take k
    let acc' := acc ++ chunk
    let resp := ext.put u
    match resp.etag with
    | none => ([.storagePut u chunk], .error .keyError)
    | some t =>
      let r := mpLoop ext k rest acc' (etags ++ [(pid, t.replace "\"" "")]) (rem.drop k)
      (.storagePut u chunk :: r.1, r.2)

/-- The `try:` block of `DVUpload.__upload_multipart` (source lines 86-114):
read `urls` and `partSize` from the negotiation data, open the file, run the
part loop, then PUT the `e_tags` map to the completion URL; a non-OK
completion status issues the abort DELETE and returns the FAILED dict,
otherwise the OK dict carries the digest of all bytes fed to `md5sum`. -/
def mpTry (server : String) (ext : Ext) :
    List Call × Except PyExc TransferRet :=
  match ext.negData.urls with
  | none => ([], .error .keyError)
  | some urls =>
    match ext.negData.partSize with
    | none => ([], .error .keyError)
    | some k =>
      match ext.fs with
      | none => ([], .error .fileNotFoundError)
      | some bytes =>
        let r := mpLoop ext k urls [] [] bytes
        match r.2 with
        | .error e => (r.1, .error e)
        | .ok (fed, etags) =>
          match ext.negData.complete with
          | none => (r.1, .error .keyError)
          | some comp =>
            let tr := r.1 ++ [.completePut (server ++ comp) etags]
            if ext.completeStatus ≠ 200 then
              match ext.negData.abort with
              | none => (tr, .error .keyError)
              | some ab =>
                (tr ++ [.abortDelete (server ++ ab)],
                 .ok ⟨"FAILED", none⟩)
            else
              (tr, .ok ⟨"OK", some ⟨"MD5", ext.md5hex fed⟩⟩)

/-- Embeds `DVUpload.__upload_multipart` (source lines 84-123): the `try:` body
wrapped in its two handlers.  `except KeyError:` logs, issues the abort
DELETE and returns the FAILED dict (lines 116-119); `except Exception:`
issues the abort DELETE (line 122) and then raises `TypeError`, because
`e.with_traceback()` on line 123 is called without its mandatory argument
inside the eagerly-evaluated f-string, so the handler never reaches its
(implicit `None`) return.  An abort-URL subscript inside either handler can
itself raise `KeyError`, which propagates. -/
def upload_multipart (server : String) (ext : Ext) :
    List Call × Except PyExc TransferRet :=
  let r := mpTry server ext
  match r.2 with
  | .ok v => (r.1, .ok v)
  | .error .keyError =>
    match ext.negData.abort with
    | none => (r.1, .error .keyError)
    | some ab =>
      (r.1 ++ [.abortDelete (server ++ ab)], .ok ⟨"FAILED", none⟩)
  | .error _ =>
    match ext.negData.abort with
    | none => (r.1, .error .keyError)
    | some ab => (r.1 ++ [.abortDelete (server ++ ab)], .error .typeError)

/-- The `try:` block of the single-part branch of `DVUpload.__upload`
(source lines 131-146): read the single `url`, open and read the whole
file, feed it to `md5sum`, PUT it; a non-OK status returns the FAILED dict,
otherwise the OK dict with the digest of the whole file. -/
def singleTry (ext : Ext) : List Call × Except PyExc TransferRet :=
  match ext.negData.url with
  | none => ([], .error .keyError)
  | some u =>
    match ext.fs with
    | none => ([], .error .fileNotFoundError)
    | some bytes =>
      let resp := ext.put u
      let tr := [Call.storagePut u bytes]
      if resp.status ≠ 200 then (tr, .ok ⟨"FAILED", none⟩)
      else (tr, .ok ⟨"OK", some ⟨"MD5", ext.md5hex bytes⟩⟩)

/-- Embeds `DVUpload.__upload` (source lines 125-154): dispatch to the multipart
path exactly when the negotiation data has a non-`None` `urls` field
(line 127); otherwise the single-part `try:` body with its handlers.
`except KeyError:` raises `UnboundLocalError`, because the log f-string on
line 150 reads `upload_request.request` and `upload_request` is never bound
when the only possible `KeyError` (missing `url`) occurred; the generic
`except Exception:` raises `TypeError` via `e.with_traceback()` on
line 153, exactly as in the multipart handler. -/
def upload_file (server : String) (ext : Ext) :
    List Call × Except PyExc TransferRet :=
  if (ext.negData.urls).isSome then upload_multipart server ext
  else
    let r := singleTry ext
    match r.2 with
    | .ok v => (r.1, .ok v)
    | .error .keyError => (r.1, .error .unboundLocalError)
    | .error _ => (r.1, .error .typeError)

/-- Embeds `DVUpload.upload` (source lines 26-82).  In order: `os.stat` (line 35,
outside the `try:`, so a missing file raises `FileNotFoundError` past the
call); build `file_metadata` — `filename.split(os.sep)[-1]` on line 39
raises `AttributeError` when `filename` is an `os.PathLike` rather than a
`str`; MIME type from `mimetypes.guess_type`, else the `MIME_TYPES`
fallback with default `mime-type/not.available`; then the negotiation GET;
a non-OK status returns the dict with status `ERROR`; then read
`storageIdentifier` (a missing key raises `KeyError`: the `try:` only
catches `ConnectionError`); then `__upload`; on transfer status `OK`
attach the checksum and POST the metadata, setting status `OK` exactly
when the POST returns OK; any non-`OK` transfer status returns the
`ERROR` dict with no POST.

`initData` is the `file_metadata["data"]` dict as built by source lines
38-46, before negotiation adds `storageIdentifier` and the transfer adds
`checksum`. -/
def initData (ext : Ext) (fname : String) (description : Option String) :
    FileData :=
  { categories := ["Data"],
    fileName := lastSplit fname '/',
    mimeType :=
      match ext.guessType with
      | some m => m
      | none =>
        ((MIME_TYPES.lookup (lastSplit fname '.')).getD
          "mime-type/not.available"),
    descr := description.getD "" }

def upload (server : String) (ext : Ext) (filename : PyStr)
    (description : Option String) :
    List Call × Except PyExc UploadResult :=
  match ext.fs with
  | none => ([], .error .fileNotFoundError)
  | some bytes =>
    let file_size := bytes.length
    match filename with
    | .pathLike _ => ([], .error .attributeError)
    | .str fname =>
      let base : FileData := initData ext fname description
      let tr0 := [Call.negGet file_size]
      if ext.negStatus ≠ 200 then
        (tr0, .ok ⟨"ERROR", base⟩)
      else
        match ext.negData.storageIdentifier with
        | none => (tr0, .error .keyError)
        | some sid =>
          let d1 := { base with storageIdentifier := some sid }
          let r := upload_file server ext
          match r.2 with
          | .error e => (tr0 ++ r.1, .error e)
          | .ok v =>
            if v.status = "OK" then
              let d2 := { d1 with checksum := v.checksum }
              let tr := tr0 ++ r.1 ++ [Call.metaPost d2]
              if ext.postStatus = 200 then (tr, .ok ⟨"OK", d2⟩)
              else (tr, .ok ⟨"ERROR", d2⟩)
            else (tr0 ++ r.1, .ok ⟨"ERROR", d1⟩)

/-- Recognises an abort DELETE in a trace. -/
def isAbort : Call → Bool
  | .abortDelete _ => true
  | _ => false

/-- Recognises a completion PUT in a trace. -/
def isCompletePut : Call → Bool
  | .completePut _ _ => true
  | _ => false

/-- Recognises the metadata POST in a trace. -/
def isMetaPost : Call → Bool
  | .metaPost _ => true
  | _ => false

/-- Recognises a storage PUT in a trace. -/
def isStoragePut : Call → Bool
  | .storagePut _ _ => true
  | _ => false

/-- Concrete environment: multipart negotiation of two parts of size 2 for
a 3-byte file; every server call succeeds. -/
def extMP : Ext :=
  { fs := some [1, 2, 3],
    guessType := some "text/plain",
    md5hex := fun _ => "d41d8cd9",
    negStatus := 200,
    negData :=
      { storageIdentifier := some "s3://demo:1",
        url := none,
        urls := some [("1", "u1"), ("2", "u2")],
        partSize := some 2,
        complete := some "/complete",
        abort := some "/abort" },
    put := fun _ => ⟨200, some "\"t\""⟩,
    completeStatus := 200,
    postStatus := 200 }

/-- Concrete environment: as `extMP`, but part 2's PUT fails with a
non-OK status and, as a failed storage PUT does, no ETag header. -/
def extMPfail : Ext :=
  { extMP with
    put := fun u => if u = "u2" then ⟨500, none⟩ else ⟨200, some "\"t\""⟩ }

/-- Concrete environment: part 2's PUT returns a non-OK status that
nevertheless carries an ETag header. -/
def extEtagAnyway : Ext :=
  { extMP with
    put := fun u =>
      if u = "u2" then ⟨500, some "\"t2\""⟩ else ⟨200, some "\"t\""⟩ }

/-- Concrete environment: single-part negotiation (no `urls` field) for a
1-byte file; every server call succeeds. -/
def extSingle : Ext :=
  { fs := some [7],
    guessType := some "text/plain",
    md5hex := fun _ => "8b1a9953",
    negStatus := 200,
    negData :=
      { storageIdentifier := some "s3://demo:2",
        url := some "u",
        urls := none,
        partSize := none,
        complete := none,
        abort := none },
    put := fun _ => ⟨200, some "\"t\""⟩,
    completeStatus := 200,
    postStatus := 200 }

/-- Concrete environment: the negotiation GET returns 403. -/
def extNegFail : Ext := { extSingle with negStatus := 403 }

/-- Concrete environment: the file does not exist. -/
def extNoFile : Ext := { extSingle with fs := none }

/-- Concrete environment: `mimetypes.guess_type` detects nothing. -/
def extNoMime : Ext := { extSingle with guessType := none }


/-- When every part response carries an ETag, the part loop succeeds: its
trace is storage PUTs only, the digest accumulator is extended by the first
`ps.length * k` remaining bytes, and the collected `e_tags` keys are
exactly the part ids, in order. -/
theorem mpLoop_ok (ext : Ext) (k : Nat) :
    ∀ (ps : List (String × String)) (acc : List Nat)
      (etags : List (String × String)) (rem : List Nat),
      (∀ p ∈ ps, ((ext.put p.2).etag).isSome) →
      ∃ tr ts,
        mpLoop ext k ps acc etags rem =
          (tr, .ok (acc ++ rem.take (ps.length * k), etags ++ ts)) ∧
        ts.map Prod.fst = ps.map Prod.fst ∧
        ∀ c ∈ tr, isStoragePut c = true := by
  intro ps
  induction ps with
  | nil =>
    intro acc etags rem _
    exact ⟨[], [], by simp [mpLoop], by simp, by simp⟩
  | cons p rest ih =>
    intro acc etags rem hall
    obtain ⟨pid, u⟩ := p
    have hu : ((ext.put u).etag).isSome := hall (pid, u) (by simp)
    obtain ⟨t, ht⟩ := Option.isSome_iff_exists.mp hu
    have hrest : ∀ q ∈ rest, ((ext.put q.2).etag).isSome := by
      intro q hq; exact hall q (by simp [hq])
    obtain ⟨tr, ts, heq, hkeys, hsp⟩ :=
      ih (acc ++ rem.take k) (etags ++ [(pid, t.replace "\"" "")]) (rem.drop k)
        hrest
    refine ⟨.storagePut u (rem.take k) :: tr,
      (pid, t.replace "\"" "") :: ts, ?_, ?_, ?_⟩
    · simp only [mpLoop, ht, heq]
      have hlen : (rest.length + 1) * k = k + rest.length * k := by ring
      simp [hlen, List.take_add, List.append_assoc]
    · simp [hkeys]
    · intro c hc
      rw [List.mem_cons] at hc
      rcases hc with hc | hc
      · subst hc; simp [isStoragePut]
      · exact hsp c hc

/-- When some part response lacks an ETag, the part loop raises `KeyError`
after issuing only storage PUTs. -/
theorem mpLoop_err (ext : Ext) (k : Nat) :
    ∀ (ps : List (String × String)) (acc : List Nat)
      (etags : List (String × String)) (rem : List Nat),
      (∃ p ∈ ps, (ext.put p.2).etag = none) →
      ∃ tr,
        mpLoop ext k ps acc etags rem = (tr, .error .keyError) ∧
        ∀ c ∈ tr, isStoragePut c = true := by
  intro ps
  induction ps with
  | nil => intro _ _ _ h; simp at h
  | cons p rest ih =>
    intro acc etags rem hex
    obtain ⟨pid, u⟩ := p
    cases hu : (ext.put u).etag with
    | none =>
      refine ⟨[.storagePut u (rem.take k)], ?_, ?_⟩
      · simp [mpLoop, hu]
      · intro c hc
        simp only [List.mem_singleton] at hc
        subst hc
        simp [isStoragePut]
    | some t =>
      have hrest : ∃ q ∈ rest, (ext.put q.2).etag = none := by
        rcases hex with ⟨q, hq, hqe⟩
        rcases List.mem_cons.mp hq with h | h
        · exfalso; rw [h] at hqe; simp at hqe; rw [hqe] at hu; cases hu
        · exact ⟨q, h, hqe⟩
      obtain ⟨tr, heq, hsp⟩ :=
        ih (acc ++ rem.take k) (etags ++ [(pid, t.replace "\"" "")])
          (rem.drop k) hrest
      refine ⟨.storagePut u (rem.take k) :: tr, ?_, ?_⟩
      · simp [mpLoop, hu, heq]
      · intro c hc
        rw [List.mem_cons] at hc
        rcases hc with hc | hc
        · subst hc; simp [isStoragePut]
        · exact hsp c hc

/-- Success shape of the multipart `try:` block: with every part ETag
present, an OK completion status and enough parts to cover the file, it
returns the OK dict whose digest is over the whole file, after PUTting the
parts and one completion call whose body is keyed by the part ids. -/
theorem mpTry_ok (server : String) (ext : Ext) (ps : List (String × String))
    (k : Nat) (bytes : List Nat) (comp : String)
    (hurls : ext.negData.urls = some ps)
    (hps : ext.negData.partSize = some k)
    (hfs : ext.fs = some bytes)
    (hall : ∀ p ∈ ps, ((ext.put p.2).etag).isSome)
    (hcomp : ext.negData.complete = some comp)
    (hcs : ext.completeStatus = 200)
    (hlen : bytes.length ≤ ps.length * k) :
    ∃ tr ts,
      mpTry server ext =
        (tr ++ [.completePut (server ++ comp) ts],
         .ok ⟨"OK", some ⟨"MD5", ext.md5hex bytes⟩⟩) ∧
      ts.map Prod.fst = ps.map Prod.fst ∧
      ∀ c ∈ tr, isStoragePut c = true := by
  obtain ⟨tr, ts, heq, hkeys, hsp⟩ := mpLoop_ok ext k ps [] [] bytes hall
  rw [List.take_of_length_le hlen] at heq
  simp only [List.nil_append] at heq
  refine ⟨tr, ts, ?_, hkeys, hsp⟩
  simp [mpTry, hurls, hps, hfs, heq, hcomp, hcs]

/-- Failure shape of the multipart `try:` block when a part response lacks
its ETag: a `KeyError` escapes the block after storage PUTs only. -/
theorem mpTry_partfail (server : String) (ext : Ext)
    (ps : List (String × String)) (k : Nat) (bytes : List Nat)
    (hurls : ext.negData.urls = some ps)
    (hps : ext.negData.partSize = some k)
    (hfs : ext.fs = some bytes)
    (hex : ∃ p ∈ ps, (ext.put p.2).etag = none) :
    ∃ tr, mpTry server ext = (tr, .error .keyError) ∧
      ∀ c ∈ tr, isStoragePut c = true := by
  obtain ⟨tr, heq, hsp⟩ := mpLoop_err ext k ps [] [] bytes hex
  exact ⟨tr, by simp [mpTry, hurls, hps, hfs, heq], hsp⟩

/-- A successful `try:` body passes through `__upload_multipart`. -/
theorem upload_multipart_of_mpTry_ok (server : String) (ext : Ext)
    (tr : List Call) (v : TransferRet)
    (h : mpTry server ext = (tr, .ok v)) :
    upload_multipart server ext = (tr, .ok v) := by
  simp [upload_multipart, h]

/-- A part failure makes `__upload_multipart` issue the abort DELETE (from
the `except KeyError:` handler) and return the FAILED dict. -/
theorem upload_multipart_partfail (server : String) (ext : Ext)
    (ps : List (String × String)) (k : Nat) (bytes : List Nat) (ab : String)
    (hurls : ext.negData.urls = some ps)
    (hps : ext.negData.partSize = some k)
    (hfs : ext.fs = some bytes)
    (hab : ext.negData.abort = some ab)
    (hex : ∃ p ∈ ps, (ext.put p.2).etag = none) :
    ∃ tr, upload_multipart server ext =
        (tr ++ [.abortDelete (server ++ ab)], .ok ⟨"FAILED", none⟩) ∧
      ∀ c ∈ tr, isStoragePut c = true := by
  obtain ⟨tr, heq, hsp⟩ := mpTry_partfail server ext ps k bytes hurls hps hfs hex
  exact ⟨tr, by simp [upload_multipart, heq, hab], hsp⟩

/-- The part loop never issues a metadata POST. -/
theorem mpLoop_no_meta (ext : Ext) (k : Nat) :
    ∀ (ps : List (String × String)) (acc : List Nat)
      (etags : List (String × String)) (rem : List Nat) (c : Call),
      c ∈ (mpLoop ext k ps acc etags rem).1 → isMetaPost c = false := by
  intro ps
  induction ps with
  | nil => intro acc etags rem c hc; simp [mpLoop] at hc
  | cons p rest ih =>
    intro acc etags rem c hc
    obtain ⟨pid, u⟩ := p
    cases hu : (ext.put u).etag with
    | none =>
      simp only [mpLoop, hu, List.mem_singleton] at hc
      subst hc; simp [isMetaPost]
    | some t =>
      simp only [mpLoop, hu] at hc
      rw [List.mem_cons] at hc
      rcases hc with hc | hc
      · subst hc; simp [isMetaPost]
      · exact ih _ _ _ c hc

/-- The multipart `try:` block never issues a metadata POST. -/
theorem mpTry_no_meta (server : String) (ext : Ext) :
    ∀ c ∈ (mpTry server ext).1, isMetaPost c = false := by
  intro c hc
  rcases hurls : ext.negData.urls with _ | ps
  · simp [mpTry, hurls] at hc
  rcases hps : ext.negData.partSize with _ | k
  · simp [mpTry, hurls, hps] at hc
  rcases hfs : ext.fs with _ | bytes
  · simp [mpTry, hurls, hps, hfs] at hc
  rcases hML : mpLoop ext k ps [] [] bytes with ⟨tr, out⟩
  have hml : ∀ d ∈ tr, isMetaPost d = false := by
    intro d hd
    exact mpLoop_no_meta ext k ps [] [] bytes d (by rw [hML]; exact hd)
  cases out with
  | error e =>
    simp only [mpTry, hurls, hps, hfs, hML] at hc
    exact hml c hc
  | ok v =>
    obtain ⟨fed, ts⟩ := v
    rcases hcm : ext.negData.complete with _ | comp
    · simp only [mpTry, hurls, hps, hfs, hML, hcm] at hc
      exact hml c hc
    simp only [mpTry, hurls, hps, hfs, hML, hcm] at hc
    split at hc
    · split at hc
      · rw [List.mem_append] at hc
        rcases hc with hc | hc
        · exact hml c hc
        · simp only [List.mem_singleton] at hc; subst hc; rfl
      · rw [List.mem_append, List.mem_append] at hc
        rcases hc with (hc | hc) | hc
        · exact hml c hc
        · simp only [List.mem_singleton] at hc; subst hc; rfl
        · simp only [List.mem_singleton] at hc; subst hc; rfl
    · rw [List.mem_append] at hc
      rcases hc with hc | hc
      · exact hml c hc
      · simp only [List.mem_singleton] at hc; subst hc; rfl

/-- The private transfer functions never issue a metadata POST. -/
theorem upload_multipart_no_meta (server : String) (ext : Ext) :
    ∀ c ∈ (upload_multipart server ext).1, isMetaPost c = false := by
  intro c hc
  have h := mpTry_no_meta server ext
  rcases hMT : mpTry server ext with ⟨tr, out⟩
  have htr : ∀ d ∈ tr, isMetaPost d = false := by
    intro d hd; exact h d (by rw [hMT]; exact hd)
  cases out with
  | ok v =>
    simp only [upload_multipart, hMT] at hc
    exact htr c hc
  | error e =>
    rcases hab : ext.negData.abort with _ | ab
    · cases e <;> simp only [upload_multipart, hMT, hab] at hc <;> exact htr c hc
    · cases e <;> simp only [upload_multipart, hMT, hab] at hc <;>
        (rw [List.mem_append] at hc
         rcases hc with hc | hc
         · exact htr c hc
         · simp only [List.mem_singleton] at hc; subst hc; simp [isMetaPost])

/-- The transfer dispatcher never issues a metadata POST. -/
theorem upload_file_no_meta (server : String) (ext : Ext) :
    ∀ c ∈ (upload_file server ext).1, isMetaPost c = false := by
  intro c hc
  by_cases hurls : (ext.negData.urls).isSome
  · simp only [upload_file, hurls, if_true] at hc
    exact upload_multipart_no_meta server ext c hc
  · have hst : ∀ d ∈ (singleTry ext).1, isMetaPost d = false := by
      intro d hd
      rcases hurl : ext.negData.url with _ | u
      · simp [singleTry, hurl] at hd
      rcases hfs : ext.fs with _ | bytes
      · simp [singleTry, hurl, hfs] at hd
      simp only [singleTry, hurl, hfs] at hd
      split at hd <;> (simp at hd; subst hd; rfl)
    rcases hST : singleTry ext with ⟨tr, out⟩
    have htr : ∀ d ∈ tr, isMetaPost d = false := by
      intro d hd; exact hst d (by rw [hST]; exact hd)
    cases out with
    | ok v =>
      simp only [upload_file, hurls, if_false, hST, Bool.false_eq_true,
        ite_false] at hc
      exact htr c hc
    | error e =>
      cases e <;>
        simp only [upload_file, hurls, if_false, hST, Bool.false_eq_true,
          ite_false] at hc <;> exact htr c hc

/-- Shape of `upload` when negotiation succeeds and the transfer returns a
dict: status `OK` triggers the metadata POST, anything else returns the
`ERROR` dict unchanged. -/
theorem upload_transfer_case (server : String) (ext : Ext) (fname : String)
    (descr : Option String) (bytes : List Nat) (sid : String)
    (tr1 : List Call) (v : TransferRet)
    (hfs : ext.fs = some bytes) (hneg : ext.negStatus = 200)
    (hsid : ext.negData.storageIdentifier = some sid)
    (htr : upload_file server ext = (tr1, .ok v)) :
    upload server ext (.str fname) descr =
      if v.status = "OK" then
        (Call.negGet bytes.length :: (tr1 ++
           [Call.metaPost { initData ext fname descr with
                            storageIdentifier := some sid,
                            checksum := v.checksum }]),
         .ok ⟨if ext.postStatus = 200 then "OK" else "ERROR",
              { initData ext fname descr with
                storageIdentifier := some sid, checksum := v.checksum }⟩)
      else
        (Call.negGet bytes.length :: tr1,
         .ok ⟨"ERROR", { initData ext fname descr with
                         storageIdentifier := some sid }⟩) := by
  by_cases hv : v.status = "OK" <;>
    by_cases hp : ext.postStatus = 200 <;>
      simp [upload, hfs, hneg, hsid, htr, hv, hp]

/-- Shape of `upload` when negotiation succeeds and the transfer raises:
the exception propagates (only `ConnectionError` is caught). -/
theorem upload_transfer_err (server : String) (ext : Ext) (fname : String)
    (descr : Option String) (bytes : List Nat) (sid : String)
    (tr1 : List Call) (e : PyExc)
    (hfs : ext.fs = some bytes) (hneg : ext.negStatus = 200)
    (hsid : ext.negData.storageIdentifier = some sid)
    (htr : upload_file server ext = (tr1, .error e)) :
    upload server ext (.str fname) descr =
      (Call.negGet bytes.length :: tr1, .error e) := by
  simp [upload, hfs, hneg, hsid, htr]

/-- Shape of `upload` when the negotiation GET returns a non-OK status. -/
theorem upload_neg_fail (server : String) (ext : Ext) (fname : String)
    (descr : Option String) (bytes : List Nat)
    (hfs : ext.fs = some bytes) (hneg : ext.negStatus ≠ 200) :
    upload server ext (.str fname) descr =
      ([Call.negGet bytes.length], .ok ⟨"ERROR", initData ext fname descr⟩) := by
  simp [upload, hfs, hneg]

/-- The part loop raises nothing but `KeyError`. -/
theorem mpLoop_err_keyError (ext : Ext) (k : Nat) :
    ∀ (ps : List (String × String)) (acc : List Nat)
      (etags : List (String × String)) (rem : List Nat) (e : PyExc),
      (mpLoop ext k ps acc etags rem).2 = .error e → e = .keyError := by
  intro ps
  induction ps with
  | nil => intro acc etags rem e he; simp [mpLoop] at he
  | cons p rest ih =>
    intro acc etags rem e he
    obtain ⟨pid, u⟩ := p
    cases hu : (ext.put u).etag with
    | none =>
      simp only [mpLoop, hu] at he
      injection he with h
      exact h.symm
    | some t =>
      simp only [mpLoop, hu] at he
      exact ih _ _ _ e he

/-- When the file exists, the multipart `try:` block raises nothing but
`KeyError`. -/
theorem mpTry_err_keyError (server : String) (ext : Ext) (bytes : List Nat)
    (hfs : ext.fs = some bytes) (e : PyExc)
    (he : (mpTry server ext).2 = .error e) : e = .keyError := by
  rcases hurls : ext.negData.urls with _ | ps
  · simp only [mpTry, hurls] at he
    injection he with h; exact h.symm
  rcases hps : ext.negData.partSize with _ | k
  · simp only [mpTry, hurls, hps] at he
    injection he with h; exact h.symm
  rcases hML : mpLoop ext k ps [] [] bytes with ⟨tr, out⟩
  cases out with
  | error e2 =>
    have h2 : e2 = .keyError :=
      mpLoop_err_keyError ext k ps [] [] bytes e2 (by rw [hML])
    simp only [mpTry, hurls, hps, hfs, hML] at he
    injection he with h
    rw [← h, h2]
  | ok v =>
    obtain ⟨fed, ts⟩ := v
    rcases hcm : ext.negData.complete with _ | comp
    · simp only [mpTry, hurls, hps, hfs, hML, hcm] at he
      injection he with h; exact h.symm
    simp only [mpTry, hurls, hps, hfs, hML, hcm] at he
    split at he
    · rcases hab : ext.negData.abort with _ | ab
      · rw [hab] at he
        injection he with h; exact h.symm
      · rw [hab] at he
        cases he
    · cases he

/-- When the file exists and the negotiation data carries an abort path,
`__upload_multipart` always returns a dict (never raises). -/
theorem upload_multipart_total (server : String) (ext : Ext)
    (bytes : List Nat) (ab : String)
    (hfs : ext.fs = some bytes) (hab : ext.negData.abort = some ab) :
    ∃ tr v, upload_multipart server ext = (tr, .ok v) := by
  rcases hMT : mpTry server ext with ⟨tr, out⟩
  cases out with
  | ok v => exact ⟨tr, v, by simp [upload_multipart, hMT]⟩
  | error e =>
    have he : e = .keyError :=
      mpTry_err_keyError server ext bytes hfs e (by rw [hMT])
    subst he
    exact ⟨tr ++ [.abortDelete (server ++ ab)], ⟨"FAILED", none⟩,
      by simp [upload_multipart, hMT, hab]⟩

/-- The single-part `try:` block, run with the url present and the file
existing: one PUT of the whole file, result by status. -/
theorem singleTry_run (ext : Ext) (u : String) (bytes : List Nat)
    (hurl : ext.negData.url = some u) (hfs : ext.fs = some bytes) :
    singleTry ext =
      ([Call.storagePut u bytes],
       if (ext.put u).status ≠ 200 then Except.ok ⟨"FAILED", none⟩
       else .ok ⟨"OK", some ⟨"MD5", ext.md5hex bytes⟩⟩) := by
  simp only [singleTry, hurl, hfs]
  split <;> simp_all

/-- When the file exists, the single path has a url, and the multipart
path has an abort path, `__upload` always returns a dict. -/
theorem upload_file_total (server : String) (ext : Ext) (bytes : List Nat)
    (hfs : ext.fs = some bytes)
    (hurl : ext.negData.urls = none → (ext.negData.url).isSome)
    (hab : (ext.negData.urls).isSome → (ext.negData.abort).isSome) :
    ∃ tr v, upload_file server ext = (tr, .ok v) := by
  rcases hurls : ext.negData.urls with _ | ps
  · obtain ⟨u, hu⟩ := Option.isSome_iff_exists.mp (hurl hurls)
    have hrun := singleTry_run ext u bytes hu hfs
    by_cases hs : (ext.put u).status ≠ 200
    · refine ⟨[Call.storagePut u bytes], ⟨"FAILED", none⟩, ?_⟩
      simp [upload_file, hurls, hrun, hs]
    · refine ⟨[Call.storagePut u bytes],
        ⟨"OK", some ⟨"MD5", ext.md5hex bytes⟩⟩, ?_⟩
      simp [upload_file, hurls, hrun, hs]
  · obtain ⟨ab, hA⟩ := Option.isSome_iff_exists.mp (hab (by simp [hurls]))
    obtain ⟨tr, v, h⟩ := upload_multipart_total server ext bytes ab hfs hA
    exact ⟨tr, v, by simp [upload_file, hurls, h]⟩

/-- C4 (amended): whenever the file exists, the filename is a `str`, and
the negotiation payload carries the fields the chosen path dereferences
(`storageIdentifier`; a `url` on the single-part path; an `abort` path on
the multipart path), `upload` returns a structured result dictionary to
its caller — negotiation failure, failed part or single PUTs, completion
failure and link failure are all reported inside the dict, with no
exception escaping. -/
theorem upload_structured_result (server : String) (ext : Ext)
    (fname : String) (descr : Option String) (bytes : List Nat)
    (hfs : ext.fs = some bytes)
    (hsid : ext.negStatus = 200 → (ext.negData.storageIdentifier).isSome)
    (hurl : ext.negStatus = 200 → ext.negData.urls = none →
      (ext.negData.url).isSome)
    (hab : ext.negStatus = 200 → (ext.negData.urls).isSome →
      (ext.negData.abort).isSome) :
    ∃ r, (upload server ext (.str fname) descr).2 = .ok r := by
  by_cases hneg : ext.negStatus = 200
  · obtain ⟨sid, hS⟩ := Option.isSome_iff_exists.mp (hsid hneg)
    obtain ⟨tr, v, hT⟩ :=
      upload_file_total server ext bytes hfs (hurl hneg) (hab hneg)
    have hcase :=
      upload_transfer_case server ext fname descr bytes sid tr v hfs hneg hS hT
    by_cases hv : v.status = "OK" <;> rw [hcase] <;> simp [hv]
  · exact ⟨⟨"ERROR", initData ext fname descr⟩,
      by rw [upload_neg_fail server ext fname descr bytes hfs hneg]⟩

/-- C4 (counterexample): for a missing file, `upload` raises
`FileNotFoundError` past the call boundary — `os.stat` on source line 35
sits outside the `try:` block — so the claim that every failure mode,
missing file included, yields a structured result is false. -/
theorem upload_missing_file_raises :
    upload "S" extNoFile (.str "f.txt") none =
      ([], .error .fileNotFoundError) := rfl

/-- C4 (witness): the amended theorem applied to the concrete multipart
environment. -/
theorem upload_structured_result_witness :
    extMP.fs = some [1, 2, 3] ∧
    (extMP.negStatus = 200 → (extMP.negData.storageIdentifier).isSome) ∧
    (extMP.negStatus = 200 → extMP.negData.urls = none →
      (extMP.negData.url).isSome) ∧
    (extMP.negStatus = 200 → (extMP.negData.urls).isSome →
      (extMP.negData.abort).isSome) ∧
    ∃ r, (upload "S" extMP (.str "f.txt") none).2 = .ok r :=
  ⟨rfl, by decide, by decide, by decide,
   upload_structured_result "S" extMP "f.txt" none [1, 2, 3] rfl
     (by decide) (by decide) (by decide)⟩

/-- C6: when the negotiation GET returns a non-OK status, `upload` makes
no further network call of any kind — the trace is exactly the one GET —
and returns the `ERROR` dict. -/
theorem upload_neg_nonOK_no_further_calls (server : String) (ext : Ext)
    (fname : String) (descr : Option String) (bytes : List Nat)
    (hfs : ext.fs = some bytes) (hneg : ext.negStatus ≠ 200) :
    (upload server ext (.str fname) descr).1 = [Call.negGet bytes.length] ∧
    (upload server ext (.str fname) descr).2 =
      .ok ⟨"ERROR", initData ext fname descr⟩ := by
  rw [upload_neg_fail server ext fname descr bytes hfs hneg]
  exact ⟨rfl, rfl⟩

/-- C6 (witness): the theorem applied to the concrete 403-negotiation
environment. -/
theorem upload_neg_nonOK_no_further_calls_witness :
    extNegFail.fs = some [7] ∧ extNegFail.negStatus ≠ 200 ∧
    ((upload "S" extNegFail (.str "f.txt") none).1 = [Call.negGet 1] ∧
     (upload "S" extNegFail (.str "f.txt") none).2 =
       .ok ⟨"ERROR", initData extNegFail "f.txt" none⟩) :=
  ⟨rfl, by decide,
   upload_neg_nonOK_no_further_calls "S" extNegFail "f.txt" none [7]
     rfl (by decide)⟩

/-- C10: called with an `os.PathLike` filename (permitted by the declared
signature) naming an existing file, `upload` raises `AttributeError` while
building the `fileName` field (source line 39, `filename.split`), before
any network call is made: the public interface has the unstated
precondition that `filename` is a `str`. -/
theorem upload_pathlike_attribute_error (server : String) (ext : Ext)
    (p : String) (descr : Option String) (bytes : List Nat)
    (hfs : ext.fs = some bytes) :
    upload server ext (.pathLike p) descr = ([], .error .attributeError) := by
  simp [upload, hfs]

/-- C10 (witness): the theorem applied to the concrete single-part
environment with a path-like filename. -/
theorem upload_pathlike_attribute_error_witness :
    extSingle.fs = some [7] ∧
    upload "S" extSingle (.pathLike "f.txt") none =
      ([], .error .attributeError) :=
  ⟨rfl, upload_pathlike_attribute_error "S" extSingle "f.txt" none [7] rfl⟩

/-- C1: for every single-part upload, and for every multipart upload whose
negotiated part URLs exactly cover the file (number of parts equals the
ceiling of file size over partSize), the checksum in a successful result is
the MD5 descriptor of the entire file content — the digest value is
`md5hex` of the full byte list, independent of `partSize` and of the
chunking. -/
theorem upload_checksum_full_file_md5 (server : String) (ext : Ext)
    (fname : String) (descr : Option String) (bytes : List Nat) (sid : String)
    (hfs : ext.fs = some bytes) (hneg : ext.negStatus = 200)
    (hsid : ext.negData.storageIdentifier = some sid)
    (hpost : ext.postStatus = 200)
    (hcase :
      (ext.negData.urls = none ∧ ∃ u, ext.negData.url = some u ∧
        (ext.put u).status = 200) ∨
      (∃ ps k comp, ext.negData.urls = some ps ∧
        ext.negData.partSize = some k ∧ 0 < k ∧
        ps.length = (bytes.length + k - 1) / k ∧
        (∀ p ∈ ps, ((ext.put p.2).etag).isSome) ∧
        ext.negData.complete = some comp ∧ ext.completeStatus = 200)) :
    (upload server ext (.str fname) descr).2 =
      .ok ⟨"OK", { initData ext fname descr with
                   storageIdentifier := some sid,
                   checksum := some ⟨"MD5", ext.md5hex bytes⟩ }⟩ := by
  rcases hcase with ⟨hurls, u, hu, hst⟩ |
    ⟨ps, k, comp, hurls, hps, hk, hplen, hall, hcomp, hcs⟩
  · have hrun := singleTry_run ext u bytes hu hfs
    have hT : upload_file server ext =
        ([Call.storagePut u bytes],
         .ok ⟨"OK", some ⟨"MD5", ext.md5hex bytes⟩⟩) := by
      simp [upload_file, hurls, hrun, hst]
    have hc2 :=
      upload_transfer_case server ext fname descr bytes sid _ _ hfs hneg hsid hT
    rw [hc2]
    simp [hpost]
  · have hlen : bytes.length ≤ ps.length * k := by
      rw [hplen]
      have h1 := Nat.div_add_mod (bytes.length + k - 1) k
      have h2 := Nat.mod_lt (bytes.length + k - 1) hk
      have h3 : k * ((bytes.length + k - 1) / k) =
          ((bytes.length + k - 1) / k) * k := Nat.mul_comm _ _
      generalize hgen : (bytes.length + k - 1) / k * k = m at h3 ⊢
      rw [h3] at h1
      omega
    obtain ⟨tr, ts, hMT, hkeys, hsp⟩ :=
      mpTry_ok server ext ps k bytes comp hurls hps hfs hall hcomp hcs hlen
    have hMP := upload_multipart_of_mpTry_ok server ext _ _ hMT
    have hT : upload_file server ext =
        (tr ++ [.completePut (server ++ comp) ts],
         .ok ⟨"OK", some ⟨"MD5", ext.md5hex bytes⟩⟩) := by
      simp [upload_file, hurls, hMP]
    have hc2 :=
      upload_transfer_case server ext fname descr bytes sid _ _ hfs hneg hsid hT
    rw [hc2]
    simp [hpost]

/-- C1 (witness): the theorem applied to the concrete two-part multipart
environment (3-byte file, partSize 2, two parts). -/
theorem upload_checksum_full_file_md5_witness :
    (∀ p ∈ [("1", "u1"), ("2", "u2")], ((extMP.put p.2).etag).isSome) ∧
    (upload "S" extMP (.str "f.txt") none).2 =
      .ok ⟨"OK", { initData extMP "f.txt" none with
                   storageIdentifier := some "s3://demo:1",
                   checksum := some ⟨"MD5", extMP.md5hex [1, 2, 3]⟩ }⟩ :=
  ⟨by decide,
   upload_checksum_full_file_md5 "S" extMP "f.txt" none [1, 2, 3]
     "s3://demo:1" rfl rfl rfl rfl
     (Or.inr ⟨[("1", "u1"), ("2", "u2")], 2, "/complete", rfl, rfl,
       by decide, by decide, by decide, rfl, rfl⟩)⟩

/-- C5 (amended): the transfer path is selected solely by the presence of
the `urls` field in the negotiation response, never by file size: whenever
the response lacks `urls`, the single-part path runs — one storage PUT of
the entire file, no completion and no abort call — for a file of any size;
no client-side `1024 ^ 3` threshold exists in the code. -/
theorem path_chosen_by_urls_not_size (server : String) (ext : Ext)
    (fname : String) (descr : Option String) (bytes : List Nat)
    (sid u : String)
    (hfs : ext.fs = some bytes) (hneg : ext.negStatus = 200)
    (hsid : ext.negData.storageIdentifier = some sid)
    (hurls : ext.negData.urls = none) (hu : ext.negData.url = some u) :
    (upload server ext (.str fname) descr).1.countP
      (fun c => isCompletePut c) = 0 ∧
    (upload server ext (.str fname) descr).1.countP
      (fun c => isAbort c) = 0 ∧
    (upload server ext (.str fname) descr).1.filter
      (fun c => isStoragePut c) = [Call.storagePut u bytes] := by
  have hrun := singleTry_run ext u bytes hu hfs
  by_cases hs : (ext.put u).status ≠ 200
  · have hT : upload_file server ext =
        ([Call.storagePut u bytes], .ok ⟨"FAILED", none⟩) := by
      simp [upload_file, hurls, hrun, hs]
    have hc2 :=
      upload_transfer_case server ext fname descr bytes sid _ _ hfs hneg hsid hT
    rw [hc2]
    simp [isCompletePut, isAbort, isStoragePut]
  · have hT : upload_file server ext =
        ([Call.storagePut u bytes],
         .ok ⟨"OK", some ⟨"MD5", ext.md5hex bytes⟩⟩) := by
      simp [upload_file, hurls, hrun, hs]
    have hc2 :=
      upload_transfer_case server ext fname descr bytes sid _ _ hfs hneg hsid hT
    rw [hc2]
    simp [isCompletePut, isAbort, isStoragePut]

/-- C5 (counterexample): a 3-byte file — strictly smaller than the alleged
`1024 ^ 3`-byte threshold — whose negotiation response carries two part
URLs is transferred on the multipart path (two part PUTs and a completion
call), not the single-part path the claim requires: the choice never
consults the file size. -/
theorem small_file_runs_multipart :
    ((extMP.fs).getD []).length < 1024 ^ 3 ∧
    (upload "S" extMP (.str "f.txt") none).1.countP
      (fun c => isCompletePut c) = 1 ∧
    (upload "S" extMP (.str "f.txt") none).1.filter
      (fun c => isStoragePut c) =
      [Call.storagePut "u1" [1, 2], Call.storagePut "u2" [3]] := by
  refine ⟨by decide, ?_, ?_⟩ <;> rfl

/-- C5 (witness): the amended theorem applied to the concrete single-part
environment. -/
theorem path_chosen_by_urls_not_size_witness :
    extSingle.negData.urls = none ∧ extSingle.negData.url = some "u" ∧
    ((upload "S" extSingle (.str "f.txt") none).1.countP
       (fun c => isCompletePut c) = 0 ∧
     (upload "S" extSingle (.str "f.txt") none).1.countP
       (fun c => isAbort c) = 0 ∧
     (upload "S" extSingle (.str "f.txt") none).1.filter
       (fun c => isStoragePut c) = [Call.storagePut "u" [7]]) :=
  ⟨rfl, rfl,
   path_chosen_by_urls_not_size "S" extSingle "f.txt" none [7]
     "s3://demo:2" "u" rfl rfl rfl rfl rfl⟩

/-- Counting helper: a trace `x :: (tr ++ [y])` holds exactly one call
satisfying `p` when `x` and all of `tr` fail `p` and `y` satisfies it. -/
theorem countP_trace_one (p : Call → Bool) (x y : Call) (tr : List Call)
    (hx : p x = false) (h0 : tr.countP p = 0) (hy : p y = true) :
    (x :: (tr ++ [y])).countP p = 1 := by
  simp [List.countP_cons, List.countP_append, h0, hx, hy]

/-- Counting helper: a trace `x :: (tr ++ [y])` holds no call satisfying
`p` when `x`, `y` and all of `tr` fail `p`. -/
theorem countP_trace_zero (p : Call → Bool) (x y : Call) (tr : List Call)
    (hx : p x = false) (h0 : tr.countP p = 0) (hy : p y = false) :
    (x :: (tr ++ [y])).countP p = 0 := by
  simp [List.countP_cons, List.countP_append, h0, hx, hy]

/-- A storage PUT is not an abort DELETE. -/
theorem storagePut_not_abort {c : Call} (h : isStoragePut c = true) :
    isAbort c = false := by
  cases c <;> simp [isStoragePut, isAbort] at *

/-- A storage PUT is not a completion PUT. -/
theorem storagePut_not_complete {c : Call} (h : isStoragePut c = true) :
    isCompletePut c = false := by
  cases c <;> simp [isStoragePut, isCompletePut] at *

/-- A storage PUT is not a metadata POST. -/
theorem storagePut_not_meta {c : Call} (h : isStoragePut c = true) :
    isMetaPost c = false := by
  cases c <;> simp [isStoragePut, isMetaPost] at *

/-- C2 (amended): for every multipart transfer in which some part's PUT
response lacks the ETag header — as a failed pre-signed PUT's response
does; the code detects part failure only through the missing header, it
never inspects the part's status code — exactly one DELETE, to the
negotiated abort URL, is issued before the upload call returns its
failure result. -/
theorem part_failure_aborts_once (server : String) (ext : Ext)
    (fname : String) (descr : Option String) (bytes : List Nat)
    (sid ab : String) (ps : List (String × String)) (k : Nat)
    (hfs : ext.fs = some bytes) (hneg : ext.negStatus = 200)
    (hsid : ext.negData.storageIdentifier = some sid)
    (hurls : ext.negData.urls = some ps)
    (hps : ext.negData.partSize = some k)
    (hab : ext.negData.abort = some ab)
    (hex : ∃ p ∈ ps, (ext.put p.2).etag = none) :
    (upload server ext (.str fname) descr).1.countP
      (fun c => isAbort c) = 1 ∧
    Call.abortDelete (server ++ ab) ∈ (upload server ext (.str fname) descr).1 ∧
    (upload server ext (.str fname) descr).2 =
      .ok ⟨"ERROR", { initData ext fname descr with
                      storageIdentifier := some sid }⟩ := by
  obtain ⟨tr, hMP, hsp⟩ :=
    upload_multipart_partfail server ext ps k bytes ab hurls hps hfs hab hex
  have hT : upload_file server ext =
      (tr ++ [.abortDelete (server ++ ab)], .ok ⟨"FAILED", none⟩) := by
    simp [upload_file, hurls, hMP]
  have hc2 :=
    upload_transfer_case server ext fname descr bytes sid _ _ hfs hneg hsid hT
  have h0 : tr.countP (fun c => isAbort c) = 0 :=
    List.countP_eq_zero.mpr
      (fun c hc => by simp [storagePut_not_abort (hsp c hc)])
  refine ⟨?_, ?_, ?_⟩
  · rw [hc2, if_neg (by decide)]
    exact countP_trace_one _ _ _ tr rfl h0 rfl
  · rw [hc2, if_neg (by decide)]
    simp
  · rw [hc2, if_neg (by decide)]

/-- C2 (counterexample): part 2's PUT returns status 500 but its response
still carries an ETag header; the code never checks the status, so no
abort DELETE is issued at all and the upload completes with status OK —
refuting the claim that a non-success part PUT always triggers exactly one
abort DELETE before a failure return. -/
theorem failed_put_with_etag_no_abort :
    (extEtagAnyway.put "u2").status ≠ 200 ∧
    (upload "S" extEtagAnyway (.str "f.txt") none).1.countP
      (fun c => isAbort c) = 0 ∧
    (upload "S" extEtagAnyway (.str "f.txt") none).2 =
      .ok ⟨"OK", { initData extEtagAnyway "f.txt" none with
                   storageIdentifier := some "s3://demo:1",
                   checksum := some ⟨"MD5", extEtagAnyway.md5hex [1, 2, 3]⟩ }⟩ :=
  ⟨by decide, rfl, rfl⟩

/-- C2 (witness): the amended theorem applied to the concrete environment
where part 2's response has no ETag. -/
theorem part_failure_aborts_once_witness :
    (∃ p ∈ [("1", "u1"), ("2", "u2")], (extMPfail.put p.2).etag = none) ∧
    ((upload "S" extMPfail (.str "f.txt") none).1.countP
       (fun c => isAbort c) = 1 ∧
     Call.abortDelete ("S" ++ "/abort") ∈
       (upload "S" extMPfail (.str "f.txt") none).1 ∧
     (upload "S" extMPfail (.str "f.txt") none).2 =
       .ok ⟨"ERROR", { initData extMPfail "f.txt" none with
                       storageIdentifier := some "s3://demo:1" }⟩) :=
  ⟨⟨("2", "u2"), by decide, by decide⟩,
   part_failure_aborts_once "S" extMPfail "f.txt" none [1, 2, 3]
     "s3://demo:1" "/abort" [("1", "u1"), ("2", "u2")] 2
     rfl rfl rfl rfl rfl rfl ⟨("2", "u2"), by decide, by decide⟩⟩

/-- C8 (amended): for every multipart upload in which one part's PUT fails
— a non-OK response without an ETag header, as failed pre-signed PUTs
return — the overall result of `upload` has status "ERROR" (the inner
transfer dict carries status "FAILED"), and neither the complete call nor
the metadata POST is made. -/
theorem part_failure_error_no_complete_no_meta (server : String) (ext : Ext)
    (fname : String) (descr : Option String) (bytes : List Nat)
    (sid ab : String) (ps : List (String × String)) (k : Nat)
    (hfs : ext.fs = some bytes) (hneg : ext.negStatus = 200)
    (hsid : ext.negData.storageIdentifier = some sid)
    (hurls : ext.negData.urls = some ps)
    (hps : ext.negData.partSize = some k)
    (hab : ext.negData.abort = some ab)
    (hex : ∃ p ∈ ps, (ext.put p.2).etag = none) :
    (upload server ext (.str fname) descr).2 =
      .ok ⟨"ERROR", { initData ext fname descr with
                      storageIdentifier := some sid }⟩ ∧
    (upload server ext (.str fname) descr).1.countP
      (fun c => isCompletePut c) = 0 ∧
    (upload server ext (.str fname) descr).1.countP
      (fun c => isMetaPost c) = 0 := by
  obtain ⟨tr, hMP, hsp⟩ :=
    upload_multipart_partfail server ext ps k bytes ab hurls hps hfs hab hex
  have hT : upload_file server ext =
      (tr ++ [.abortDelete (server ++ ab)], .ok ⟨"FAILED", none⟩) := by
    simp [upload_file, hurls, hMP]
  have hc2 :=
    upload_transfer_case server ext fname descr bytes sid _ _ hfs hneg hsid hT
  have h0 : tr.countP (fun c => isCompletePut c) = 0 :=
    List.countP_eq_zero.mpr
      (fun c hc => by simp [storagePut_not_complete (hsp c hc)])
  have h1 : tr.countP (fun c => isMetaPost c) = 0 :=
    List.countP_eq_zero.mpr
      (fun c hc => by simp [storagePut_not_meta (hsp c hc)])
  refine ⟨?_, ?_, ?_⟩
  · rw [hc2, if_neg (by decide)]
  · rw [hc2, if_neg (by decide)]
    exact countP_trace_zero _ _ _ tr rfl h0 rfl
  · rw [hc2, if_neg (by decide)]
    exact countP_trace_zero _ _ _ tr rfl h1 rfl

/-- C8 (counterexample): part 2 of 2 fails with a non-OK, ETag-less PUT
response; an abort DELETE is issued and no complete or metadata call is
made, but the overall result status is "ERROR", not the "FAILED" the claim
asserts — "FAILED" only ever appears in the private transfer dict. -/
theorem part2_failure_overall_error_not_failed :
    (extMPfail.put "u2").status ≠ 200 ∧
    (extMPfail.put "u2").etag = none ∧
    (upload "S" extMPfail (.str "f.txt") none).2 =
      .ok ⟨"ERROR", { initData extMPfail "f.txt" none with
                      storageIdentifier := some "s3://demo:1" }⟩ ∧
    "ERROR" ≠ "FAILED" ∧
    (upload "S" extMPfail (.str "f.txt") none).1.countP
      (fun c => isCompletePut c) = 0 ∧
    (upload "S" extMPfail (.str "f.txt") none).1.countP
      (fun c => isMetaPost c) = 0 :=
  ⟨by decide, by decide, rfl, by decide, rfl, rfl⟩

/-- C8 (witness): the amended theorem applied to the concrete environment
where part 2's PUT fails. -/
theorem part_failure_error_no_complete_no_meta_witness :
    (∃ p ∈ [("1", "u1"), ("2", "u2")], (extMPfail.put p.2).etag = none) ∧
    ((upload "S" extMPfail (.str "f.txt") none).2 =
       .ok ⟨"ERROR", { initData extMPfail "f.txt" none with
                       storageIdentifier := some "s3://demo:1" }⟩ ∧
     (upload "S" extMPfail (.str "f.txt") none).1.countP
       (fun c => isCompletePut c) = 0 ∧
     (upload "S" extMPfail (.str "f.txt") none).1.countP
       (fun c => isMetaPost c) = 0) :=
  ⟨⟨("2", "u2"), by decide, by decide⟩,
   part_failure_error_no_complete_no_meta "S" extMPfail "f.txt" none
     [1, 2, 3] "s3://demo:1" "/abort" [("1", "u1"), ("2", "u2")] 2
     rfl rfl rfl rfl rfl rfl ⟨("2", "u2"), by decide, by decide⟩⟩

/-- Every call the part loop issues is a storage PUT. -/
theorem mpLoop_all_storage (ext : Ext) (k : Nat) :
    ∀ (ps : List (String × String)) (acc : List Nat)
      (etags : List (String × String)) (rem : List Nat) (c : Call),
      c ∈ (mpLoop ext k ps acc etags rem).1 → isStoragePut c = true := by
  intro ps
  induction ps with
  | nil => intro acc etags rem c hc; simp [mpLoop] at hc
  | cons p rest ih =>
    intro acc etags rem c hc
    obtain ⟨pid, u⟩ := p
    cases hu : (ext.put u).etag with
    | none =>
      simp only [mpLoop, hu, List.mem_singleton] at hc
      subst hc; rfl
    | some t =>
      simp only [mpLoop, hu] at hc
      rw [List.mem_cons] at hc
      rcases hc with hc | hc
      · subst hc; rfl
      · exact ih _ _ _ c hc

/-- A successful part loop collects one token per part, keyed in order by
the part ids of the urls it walked. -/
theorem mpLoop_ok_keys (ext : Ext) (k : Nat) :
    ∀ (ps : List (String × String)) (acc : List Nat)
      (etags : List (String × String)) (rem : List Nat)
      (fed : List Nat) (ts : List (String × String)),
      (mpLoop ext k ps acc etags rem).2 = .ok (fed, ts) →
      ts.map Prod.fst = etags.map Prod.fst ++ ps.map Prod.fst := by
  intro ps
  induction ps with
  | nil =>
    intro acc etags rem fed ts h
    simp only [mpLoop] at h
    injection h with h
    injection h with h1 h2
    subst h2
    simp
  | cons p rest ih =>
    intro acc etags rem fed ts h
    obtain ⟨pid, u⟩ := p
    cases hu : (ext.put u).etag with
    | none => simp only [mpLoop, hu] at h; cases h
    | some t =>
      simp only [mpLoop, hu] at h
      have := ih (acc ++ rem.take k)
        (etags ++ [(pid, t.replace "\"" "")]) (rem.drop k) fed ts h
      simpa using this

/-- Any completion PUT in the multipart `try:` trace carries exactly the
negotiated part ids as its body's keys. -/
theorem mpTry_completePut_body (server : String) (ext : Ext)
    (ps : List (String × String)) (bytes : List Nat)
    (hurls : ext.negData.urls = some ps) (hfs : ext.fs = some bytes) :
    ∀ cu b, Call.completePut cu b ∈ (mpTry server ext).1 →
      b.map Prod.fst = ps.map Prod.fst := by
  intro cu b hmem
  rcases hps : ext.negData.partSize with _ | k
  · simp [mpTry, hurls, hps] at hmem
  rcases hML : mpLoop ext k ps [] [] bytes with ⟨tr, out⟩
  have hnc : Call.completePut cu b ∉ tr := by
    intro hin
    have := mpLoop_all_storage ext k ps [] [] bytes _ (by rw [hML]; exact hin)
    simp [isStoragePut] at this
  cases out with
  | error e =>
    simp only [mpTry, hurls, hps, hfs, hML] at hmem
    exact absurd hmem hnc
  | ok v =>
    obtain ⟨fed, ts⟩ := v
    have hkeys : ts.map Prod.fst = ps.map Prod.fst := by
      have h := mpLoop_ok_keys ext k ps [] [] bytes fed ts (by rw [hML])
      simpa using h
    rcases hcm : ext.negData.complete with _ | comp
    · simp only [mpTry, hurls, hps, hfs, hML, hcm] at hmem
      exact absurd hmem hnc
    simp only [mpTry, hurls, hps, hfs, hML, hcm] at hmem
    split at hmem
    · split at hmem
      · rw [List.mem_append, List.mem_singleton] at hmem
        rcases hmem with h | h
        · exact absurd h hnc
        · injection h with h1 h2; subst h2; exact hkeys
      · rw [List.mem_append, List.mem_append, List.mem_singleton,
          List.mem_singleton] at hmem
        rcases hmem with (h | h) | h
        · exact absurd h hnc
        · injection h with h1 h2; subst h2; exact hkeys
        · exact Call.noConfusion h
    · rw [List.mem_append, List.mem_singleton] at hmem
      rcases hmem with h | h
      · exact absurd h hnc
      · injection h with h1 h2; subst h2; exact hkeys

/-- Every call `__upload_multipart` issues is either from the `try:`
block's trace or an abort DELETE added by a handler. -/
theorem upload_multipart_trace_cases (server : String) (ext : Ext) (c : Call)
    (hc : c ∈ (upload_multipart server ext).1) :
    c ∈ (mpTry server ext).1 ∨ isAbort c = true := by
  rcases hMT : mpTry server ext with ⟨tr2, out2⟩
  cases out2 with
  | ok v =>
    simp only [upload_multipart, hMT] at hc
    exact Or.inl hc
  | error e =>
    rcases hab : ext.negData.abort with _ | ab
    · cases e <;> simp only [upload_multipart, hMT, hab] at hc <;>
        exact Or.inl hc
    · cases e <;> simp only [upload_multipart, hMT, hab] at hc <;>
        (rw [List.mem_append, List.mem_singleton] at hc
         rcases hc with hc | hc
         · exact Or.inl hc
         · subst hc; exact Or.inr rfl)

/-- Any completion PUT issued by the transfer dispatcher, when negotiation
returned `urls`, carries exactly the negotiated part ids. -/
theorem upload_file_completePut_body (server : String) (ext : Ext)
    (ps : List (String × String)) (bytes : List Nat)
    (hurls : ext.negData.urls = some ps) (hfs : ext.fs = some bytes) :
    ∀ cu b, Call.completePut cu b ∈ (upload_file server ext).1 →
      b.map Prod.fst = ps.map Prod.fst := by
  intro cu b hmem
  have hd : upload_file server ext = upload_multipart server ext := by
    simp [upload_file, hurls]
  rw [hd] at hmem
  rcases upload_multipart_trace_cases server ext _ hmem with h | h
  · exact mpTry_completePut_body server ext ps bytes hurls hfs cu b h
  · simp [isAbort] at h

/-- Every call `upload` issues is either from the transfer dispatcher's
trace, the negotiation GET, or the metadata POST. -/
theorem upload_trace_cases (server : String) (ext : Ext) (fname : String)
    (descr : Option String) (bytes : List Nat) (hfs : ext.fs = some bytes)
    (c : Call) (hc : c ∈ (upload server ext (.str fname) descr).1) :
    c ∈ (upload_file server ext).1 ∨ (∃ n, c = Call.negGet n) ∨
      isMetaPost c = true := by
  by_cases hneg : ext.negStatus = 200
  · rcases hsid : ext.negData.storageIdentifier with _ | sid
    · have heq : upload server ext (.str fname) descr =
          ([Call.negGet bytes.length], .error .keyError) := by
        simp [upload, hfs, hneg, hsid]
      rw [heq] at hc
      simp only [List.mem_singleton] at hc
      exact Or.inr (Or.inl ⟨_, hc⟩)
    · rcases hUF : upload_file server ext with ⟨tr1, out⟩
      cases out with
      | error e =>
        rw [upload_transfer_err server ext fname descr bytes sid tr1 e
          hfs hneg hsid hUF] at hc
        simp only [List.mem_cons] at hc
        rcases hc with hc | hc
        · exact Or.inr (Or.inl ⟨_, hc⟩)
        · exact Or.inl hc
      | ok v =>
        rw [upload_transfer_case server ext fname descr bytes sid tr1 v
          hfs hneg hsid hUF] at hc
        by_cases hv : v.status = "OK"
        · rw [if_pos hv] at hc
          simp only [List.mem_cons, List.mem_append, List.mem_singleton] at hc
          rcases hc with hc | hc | hc | hc
          · exact Or.inr (Or.inl ⟨_, hc⟩)
          · exact Or.inl hc
          · subst hc; exact Or.inr (Or.inr rfl)
          · exact absurd hc (List.not_mem_nil _)
        · rw [if_neg hv] at hc
          simp only [List.mem_cons] at hc
          rcases hc with hc | hc
          · exact Or.inr (Or.inl ⟨_, hc⟩)
          · exact Or.inl hc
  · rw [upload_neg_fail server ext fname descr bytes hfs hneg] at hc
    simp only [List.mem_singleton] at hc
    exact Or.inr (Or.inl ⟨_, hc⟩)

/-- C7: whenever the multipart complete call is issued, its body is keyed
by exactly the part-index list returned in negotiation — one completion
token per part, in order, with no gaps and (the negotiation indices being
JSON object keys, hence distinct) no duplicates. -/
theorem complete_body_keys_match_parts (server : String) (ext : Ext)
    (fname : String) (descr : Option String) (bytes : List Nat)
    (ps : List (String × String))
    (hfs : ext.fs = some bytes)
    (hurls : ext.negData.urls = some ps)
    (hnd : (ps.map Prod.fst).Nodup) :
    ∀ cu b, Call.completePut cu b ∈ (upload server ext (.str fname) descr).1 →
      b.map Prod.fst = ps.map Prod.fst ∧ (b.map Prod.fst).Nodup := by
  intro cu b hmem
  rcases upload_trace_cases server ext fname descr bytes hfs _ hmem with
    h | h | h
  · have hb := upload_file_completePut_body server ext ps bytes hurls hfs cu b h
    exact ⟨hb, hb ▸ hnd⟩
  · rcases h with ⟨n, h⟩
    exact Call.noConfusion h
  · simp [isMetaPost] at h

/-- C7 (witness): the theorem applied to the concrete two-part multipart
environment. -/
theorem complete_body_keys_match_parts_witness :
    extMP.fs = some [1, 2, 3] ∧
    extMP.negData.urls = some [("1", "u1"), ("2", "u2")] ∧
    (([("1", "u1"), ("2", "u2")].map Prod.fst).Nodup) ∧
    (∀ cu b,
      Call.completePut cu b ∈ (upload "S" extMP (.str "f.txt") none).1 →
      b.map Prod.fst = [("1", "u1"), ("2", "u2")].map Prod.fst ∧
      (b.map Prod.fst).Nodup) :=
  ⟨rfl, rfl, by decide,
   complete_body_keys_match_parts "S" extMP "f.txt" none [1, 2, 3]
     [("1", "u1"), ("2", "u2")] rfl rfl (by decide)⟩

/-- C3: the metadata POST is issued if and only if the private transfer
stage returned a dict with status OK (after a successful negotiation);
when the transfer reports failure, or raises, or negotiation fails, no
POST is made. -/
theorem metadata_post_iff_transfer_ok (server : String) (ext : Ext)
    (fname : String) (descr : Option String) (bytes : List Nat) (sid : String)
    (hfs : ext.fs = some bytes)
    (hsid : ext.negData.storageIdentifier = some sid) :
    (∃ d, Call.metaPost d ∈ (upload server ext (.str fname) descr).1) ↔
    (ext.negStatus = 200 ∧
     ∃ v, (upload_file server ext).2 = .ok v ∧ v.status = "OK") := by
  constructor
  · rintro ⟨d, hd⟩
    by_cases hneg : ext.negStatus = 200
    · rcases hUF : upload_file server ext with ⟨tr1, out⟩
      have hnometa : Call.metaPost d ∉ tr1 := by
        intro hin
        have := upload_file_no_meta server ext (Call.metaPost d)
          (by rw [hUF]; exact hin)
        simp [isMetaPost] at this
      cases out with
      | error e =>
        rw [upload_transfer_err server ext fname descr bytes sid tr1 e
          hfs hneg hsid hUF] at hd
        simp only [List.mem_cons] at hd
        rcases hd with hd | hd
        · exact Call.noConfusion hd
        · exact absurd hd hnometa
      | ok v =>
        rw [upload_transfer_case server ext fname descr bytes sid tr1 v
          hfs hneg hsid hUF] at hd
        by_cases hv : v.status = "OK"
        · exact ⟨hneg, v, rfl, hv⟩
        · rw [if_neg hv] at hd
          simp only [List.mem_cons] at hd
          rcases hd with hd | hd
          · exact Call.noConfusion hd
          · exact absurd hd hnometa
    · rw [upload_neg_fail server ext fname descr bytes hfs hneg] at hd
      simp only [List.mem_singleton] at hd
      exact Call.noConfusion hd
  · rintro ⟨hneg, v, hv, hst⟩
    rcases hUF : upload_file server ext with ⟨tr1, out⟩
    rw [hUF] at hv
    cases out with
    | error e => simp at hv
    | ok v2 =>
      have hv2 : v2 = v := by injection hv
      subst hv2
      refine ⟨{ initData ext fname descr with
                storageIdentifier := some sid,
                checksum := v2.checksum }, ?_⟩
      rw [upload_transfer_case server ext fname descr bytes sid tr1 v2
        hfs hneg hsid hUF, if_pos hst]
      simp

/-- C3 (witness): the theorem applied to the concrete multipart
environment, where the transfer succeeds and the POST is issued. -/
theorem metadata_post_iff_transfer_ok_witness :
    extMP.fs = some [1, 2, 3] ∧
    extMP.negData.storageIdentifier = some "s3://demo:1" ∧
    ((∃ d, Call.metaPost d ∈ (upload "S" extMP (.str "f.txt") none).1) ↔
     (extMP.negStatus = 200 ∧
      ∃ v, (upload_file "S" extMP).2 = .ok v ∧ v.status = "OK")) :=
  ⟨rfl, rfl,
   metadata_post_iff_transfer_ok "S" extMP "f.txt" none [1, 2, 3]
     "s3://demo:1" rfl rfl⟩

/-- C9 (amended): whenever the metadata record is submitted for a file
whose MIME type is undetectable — `guess_type` yields nothing and the
extension is not in the `MIME_TYPES` fallback — the submitted record's
mimeType field is the placeholder string `mime-type/not.available`, not
the empty string. -/
theorem undetected_mime_placeholder (server : String) (ext : Ext)
    (fname : String) (descr : Option String) (bytes : List Nat)
    (hfs : ext.fs = some bytes) (hguess : ext.guessType = none)
    (hlook : (MIME_TYPES.lookup (lastSplit fname '.')) = none) :
    ∀ d, Call.metaPost d ∈ (upload server ext (.str fname) descr).1 →
      d.mimeType = "mime-type/not.available" := by
  intro d hd
  have hmime : (initData ext fname descr).mimeType =
      "mime-type/not.available" := by
    simp [initData, hguess, hlook]
  by_cases hneg : ext.negStatus = 200
  · rcases hsid : ext.negData.storageIdentifier with _ | sid
    · have heq : upload server ext (.str fname) descr =
          ([Call.negGet bytes.length], .error .keyError) := by
        simp [upload, hfs, hneg, hsid]
      rw [heq] at hd
      simp only [List.mem_singleton] at hd
      exact Call.noConfusion hd
    · rcases hUF : upload_file server ext with ⟨tr1, out⟩
      have hnometa : Call.metaPost d ∉ tr1 := by
        intro hin
        have := upload_file_no_meta server ext (Call.metaPost d)
          (by rw [hUF]; exact hin)
        simp [isMetaPost] at this
      cases out with
      | error e =>
        rw [upload_transfer_err server ext fname descr bytes sid tr1 e
          hfs hneg hsid hUF] at hd
        simp only [List.mem_cons] at hd
        rcases hd with hd | hd
        · exact Call.noConfusion hd
        · exact absurd hd hnometa
      | ok v =>
        rw [upload_transfer_case server ext fname descr bytes sid tr1 v
          hfs hneg hsid hUF] at hd
        by_cases hv : v.status = "OK"
        · rw [if_pos hv] at hd
          simp only [List.mem_cons, List.mem_append, List.mem_singleton] at hd
          rcases hd with hd | hd | hd | hd
          · exact Call.noConfusion hd
          · exact absurd hd hnometa
          · injection hd with hd2
            subst hd2
            exact hmime
          · exact absurd hd (List.not_mem_nil _)
        · rw [if_neg hv] at hd
          simp only [List.mem_cons] at hd
          rcases hd with hd | hd
          · exact Call.noConfusion hd
          · exact absurd hd hnometa
  · rw [upload_neg_fail server ext fname descr bytes hfs hneg] at hd
    simp only [List.mem_singleton] at hd
    exact Call.noConfusion hd

/-- C9 (counterexample): a successful upload of `a.xyz` whose MIME type is
undetectable submits `mime-type/not.available` — not the empty string the
claim asserts — as the record's mimeType. -/
theorem undetected_mime_not_empty :
    extNoMime.guessType = none ∧
    (upload "S" extNoMime (.str "a.xyz") none).2 =
      .ok ⟨"OK", { categories := ["Data"], fileName := "a.xyz",
                   mimeType := "mime-type/not.available", descr := "",
                   storageIdentifier := some "s3://demo:2",
                   checksum := some ⟨"MD5", "8b1a9953"⟩ }⟩ ∧
    (upload "S" extNoMime (.str "a.xyz") none).1.countP
      (fun c => isMetaPost c) = 1 ∧
    "mime-type/not.available" ≠ "" :=
  ⟨rfl, rfl, rfl, by decide⟩

/-- C9 (witness): the amended theorem applied to the concrete environment
with an undetectable MIME type. -/
theorem undetected_mime_placeholder_witness :
    extNoMime.guessType = none ∧
    (MIME_TYPES.lookup (lastSplit "a.xyz" '.')) = none ∧
    (∀ d, Call.metaPost d ∈ (upload "S" extNoMime (.str "a.xyz") none).1 →
      d.mimeType = "mime-type/not.available") :=
  ⟨rfl, by decide,
   undetected_mime_placeholder "S" extNoMime "a.xyz" none [7]
     rfl rfl (by decide)⟩

end DV
